import Mathlib

/-!
# Verification of the obl command dispatch and interaction engine

Shallow embedding of the core of the `obl` chat-bot framework:
the `StringReader` text cursor, the primitive parsers (`Parsers.Number`,
`Parsers.Duration`), the command dispatcher (`CommandDispatcher.dispatch`,
`findNext`, flag parsing), the asynchronous-argument join
(`CommandContext.awaitPromises`), the trigger/condition/action interaction
engine (`Interaction.trigger`, `destroy`, builder chain) and the
interaction serialization protocol (`saveComponent` / `loadComponent`,
`serializeInteraction` / `deserializeInteraction`, bulk load).

Modelling conventions:
* JS strings are `List Char`; the reader index is an `Int` because the
  source arithmetic can drive it negative or past the end.
* JS loops without a structural termination argument are given explicit
  fuel; exhausted fuel models a source-level divergence (infinite loop or
  unbounded recursion) and is returned as `none` / a `divergedR` result.
  The fuel chosen is proven (or argued in comments) to dominate every
  terminating run of the source loop.
* JS `Map` objects are association lists with overwrite-on-set (`listSet`).
* Thrown-and-uncaught JS exceptions are `Except.error` / `none` values.
* JS numbers are handled as `Option ℚ` (`none` standing for `NaN`); every
  concrete value exercised by the claims is a small integer, on which the
  rational model agrees exactly with IEEE doubles.
-/

namespace OBL

/-- Association-list lookup, the model of JS `Map.get` (and of reading a
plain-object property): first binding wins, `none` models `undefined`. -/
def listGet {α : Type} (l : List (String × α)) (k : String) : Option α :=
  match l with
  | [] => none
  | (k', v) :: rest => if k' = k then some v else listGet rest k

/-- Association-list update, the model of JS `Map.set` / property
assignment: overwrite the existing binding, else append. -/
def listSet {α : Type} (l : List (String × α)) (k : String) (v : α) : List (String × α) :=
  match l with
  | [] => [(k, v)]
  | (k', v') :: rest => if k' = k then (k, v) :: rest else (k', v') :: listSet rest k v

/-- Association-list delete, the model of JS `Map.delete`. -/
def listEraseKey {α : Type} (l : List (String × α)) (k : String) : List (String × α) :=
  l.filter (fun e => e.1 ≠ k)

/-! ## StringReader (src/src/util/strings.ts)

`export const EOS: string = "￿"` and the cursor type
`StringReader { str, idx, len, ist }`.  `len` is a cache of
`str.length` and is modelled by `r.str.length` directly. -/

/-- The end-of-stream sentinel character. -/
def EOS : Char := '￿'

/-- `isCharWhitespace` from strings.ts. -/
def isCharWhitespace (c : Char) : Bool :=
  c = ' ' || c = '\t' || c = '\n' || c = '\r'

/-- The `StringReader` state: the string, the cursor (an `Int`: the source
never clamps it), and the saved-index stack `ist`. -/
structure StringReader where
  str : List Char
  idx : Int
  ist : List Int
deriving DecidableEq

/-- `new StringReader(str)`: cursor 0, empty index stack. -/
def StringReader.make (s : List Char) : StringReader :=
  ⟨s, 0, []⟩

/-- Fuel-driven core of `StringReader.at`: the source recurses with
`at(len + idx)` whenever `idx < 0` (JS negative indexing from the end).
For a non-empty string `|idx| + 1` steps always suffice; on the empty
string with `idx < 0` the source recurses forever (stack overflow), a
state unreachable from the reader operations, and the model returns
`EOS` there. -/
def atIdxGo : Nat → StringReader → Int → Char
  | 0, _, _ => EOS
  | fuel + 1, r, i =>
    if i < 0 then
      if r.str.length = 0 then EOS
      else atIdxGo fuel r ((r.str.length : Int) + i)
    else if i ≥ (r.str.length : Int) then EOS
    else r.str.getD i.toNat EOS

/-- `at(idx)`: bounds-checked read; `idx < 0` wraps from the end of the
string, `idx ≥ len` yields `EOS`. -/
def StringReader.atIdx (r : StringReader) (i : Int) : Char :=
  atIdxGo (i.natAbs + 1) r i

/-- `current()`: the character at the cursor. -/
def StringReader.current (r : StringReader) : Char :=
  r.atIdx r.idx

/-- `move(a)`: if the cursor sits exactly at `-1` or at `len` it is frozen
and `EOS` is returned; otherwise the cursor moves by `a` (unclamped) and
the character now under it is returned. -/
def StringReader.move (r : StringReader) (a : Int) : Char × StringReader :=
  if r.idx = -1 ∨ r.idx = (r.str.length : Int) then (EOS, r)
  else
    let r' : StringReader := { r with idx := r.idx + a }
    (r'.current, r')

/-- `next(a = 1)` is `move(a)`. -/
def StringReader.next (r : StringReader) (a : Int := 1) : Char × StringReader :=
  r.move a

/-- `back(a = 1)` is `move(-a)`. -/
def StringReader.back (r : StringReader) (a : Int := 1) : Char × StringReader :=
  r.move (-a)

/-- `pushIndex()`: push the cursor on the checkpoint stack. -/
def StringReader.pushIndex (r : StringReader) : StringReader :=
  { r with ist := r.idx :: r.ist }

/-- `restore()`: pop the checkpoint stack into the cursor.  The source
assigns `undefined` when the stack is empty; every use in the repository
is balanced, so the model returns the reader unchanged in that case. -/
def StringReader.restore (r : StringReader) : StringReader :=
  match r.ist with
  | i :: rest => { r with idx := i, ist := rest }
  | [] => r

/-- Fuel-driven core of `collect(pred, skip)`: loop while the current
character is not `EOS`; skip characters matched by `skip`, stop at the
first character failing `pred`, accumulate the rest, advancing with
`next()` each time.  `acc` is the accumulator, reversed on exit. -/
def collectGo (pred skip : Char → Bool) : Nat → StringReader → List Char → Option (List Char × StringReader)
  | 0, _, _ => none
  | fuel + 1, r, acc =>
    let c := r.current
    if c = EOS then some (acc.reverse, r)
    else if skip c then collectGo pred skip fuel (r.move 1).2 acc
    else if ¬ pred c then some (acc.reverse, r)
    else collectGo pred skip fuel (r.move 1).2 (c :: acc)

/-- Fuel that dominates every terminating run of the `collect` /
`skipWhitespace` loops: from cursor `idx`, at most `len - idx` advancing
steps can happen before the cursor freezes or reaches `EOS`. -/
def StringReader.loopFuel (r : StringReader) : Nat :=
  ((r.str.length : Int) - r.idx).toNat + 2

/-- `collect(pred, skip)`.  `none` models the source diverging (the loop
can spin forever when the cursor is frozen at `-1`). -/
def StringReader.collect (r : StringReader) (pred : Char → Bool)
    (skip : Char → Bool := fun _ => false) : Option (List Char × StringReader) :=
  collectGo pred skip r.loopFuel r []

/-- Fuel-driven core of `skipWhitespace()`: advance while the current
character is whitespace. -/
def skipWhitespaceGo : Nat → StringReader → Char → Option StringReader
  | 0, _, _ => none
  | fuel + 1, r, c =>
    if isCharWhitespace c then
      let (c', r') := r.move 1
      skipWhitespaceGo fuel r' c'
    else some r

/-- `skipWhitespace()`.  The source loop always terminates (a frozen
cursor returns `EOS`, which is not whitespace); the fuel is sufficient. -/
def StringReader.skipWhitespace (r : StringReader) : Option StringReader :=
  skipWhitespaceGo r.loopFuel r r.current

/-! ### C9: the cursor-range claim

The claim quantifies over sequences of `next(n)` / `back(n)` /
`collect` / `skipWhitespace` operations.  The model of one operation: -/

/-- One reader operation as named by claim C9.  `nextN` / `backN` carry
the step count `n` of `next(n)` / `back(n)`. -/
inductive ReaderOp where
  | nextN (n : Int)
  | backN (n : Int)
  | collectOp (pred skip : Char → Bool)
  | skipWs

/-- Apply one reader operation; `none` models source divergence. -/
def ReaderOp.apply : ReaderOp → StringReader → Option StringReader
  | .nextN n, r => some (r.next n).2
  | .backN n, r => some (r.back n).2
  | .collectOp p s, r => (r.collect p s).map (fun x => x.2)
  | .skipWs, r => r.skipWhitespace

/-- Apply a sequence of reader operations left to right. -/
def runReaderOps (ops : List ReaderOp) (r : StringReader) : Option StringReader :=
  match ops with
  | [] => some r
  | op :: rest =>
    match op.apply r with
    | none => none
    | some r' => runReaderOps rest r'

/-- The unit-step operations, to which the amended claim C9 restricts. -/
def ReaderOp.unitStep : ReaderOp → Prop
  | .nextN n => n = 1
  | .backN n => n = 1
  | .collectOp _ _ => True
  | .skipWs => True

/-! ## Parse results and the primitive parsers (src/src/util/strings.ts)

A synchronous `ParseResult<T>` is either a value or a `ParseError`
(message plus `StringLoc` span).  `uncaughtError` results arise only when
`ParseContext.parse` catches a non-`ParseError` exception; the model
parsers are total and never produce one.  Pending (asynchronous) results
are modelled separately for claim C2 (`SettledParseResult`). -/

/-- A synchronous parse result: value, or a `ParseError` with its
source span (`StringLoc` start/end, inclusive, as in the source). -/
inductive ParseRes (V : Type) where
  | ok (v : V)
  | err (msg : String) (locStart locEnd : Int)
deriving DecidableEq

/-- `isBase10Digit` from strings.ts. -/
def isBase10Digit (c : Char) : Bool :=
  '0' ≤ c ∧ c ≤ '9'

/-- Digit list to the natural number it denotes. -/
def digitsToNat (ds : List Char) : Nat :=
  ds.foldl (fun n c => n * 10 + (c.toNat - '0'.toNat)) 0

/-- A JS number as produced by `parseFloat` on digit/`.` input and by
the arithmetic the duration parser performs on such values: the exact
decimal `mant / 10 ^ scale`.  (JS doubles are binary floating point;
every value these claims exercise is a small integer, represented
exactly by both.) -/
structure DecNum where
  mant : Int
  scale : Nat
deriving DecidableEq

/-- A JS integer literal. -/
def DecNum.ofInt (n : Int) : DecNum := ⟨n, 0⟩

/-- JS `== 0` on a number (value equality, independent of scale). -/
def DecNum.isZero (d : DecNum) : Bool := d.mant = 0

/-- JS `*` on exact decimals. -/
def DecNum.mul (a b : DecNum) : DecNum :=
  ⟨a.mant * b.mant, a.scale + b.scale⟩

/-- JS `+` on exact decimals. -/
def DecNum.add (a b : DecNum) : DecNum :=
  ⟨a.mant * (10 : Int) ^ b.scale + b.mant * (10 : Int) ^ a.scale, a.scale + b.scale⟩

/-- JS `parseFloat`, restricted to its use in `Parsers.Number`: the input
has already been filtered by `collect` to digits, `.` and `_`.
`parseFloat` reads the longest prefix `digits [ "." digits ]`, stopping at
the first `_` or second `.`; no digits at all gives `NaN` (`none`). -/
def jsParseFloat (cs : List Char) : Option DecNum :=
  let intDigits := cs.takeWhile isBase10Digit
  let rest := cs.drop intDigits.length
  let fracDigits :=
    match rest with
    | '.' :: r => r.takeWhile isBase10Digit
    | _ => []
  if intDigits.isEmpty ∧ fracDigits.isEmpty then none
  else
    some ⟨(digitsToNat intDigits : Int) * (10 : Int) ^ fracDigits.length + (digitsToNat fracDigits : Int),
          fracDigits.length⟩

/-- The character predicate of `Parsers.Number`:
`(c >= '0' && c <= '9') || c == '.' || c == '_'`. -/
def numberCharPred (c : Char) : Bool :=
  ('0' ≤ c ∧ c ≤ '9') || c = '.' || c = '_'

/-- `Parsers.Number`: collect the number characters and `parseFloat`
them; the result is always a success (possibly `NaN`, i.e. `none`).
`none` at the outer level models a diverging `collect`. -/
def numberParse (r : StringReader) : Option (Option DecNum × StringReader) :=
  (r.collect numberCharPred).map (fun x => (jsParseFloat x.1, x.2))

/-- `Parsers.UNIT2MS_MAP`: time-unit name to milliseconds. -/
def UNIT2MS_MAP : List (String × DecNum) :=
  [("ms", .ofInt 1), ("s", .ofInt 1000), ("m", .ofInt (60 * 1000)),
   ("h", .ofInt (60 * 60 * 1000)), ("d", .ofInt (24 * 60 * 60 * 1000)),
   ("M", .ofInt (30 * 24 * 60 * 60 * 1000)), ("y", .ofInt (365 * 24 * 60 * 60 * 1000))]

/-- Fuel-driven core of `Parsers.Duration.parse`: while the current
character is a digit, read a number (zero or `NaN` short-circuits to a
successful `0`), then the unit name (`collect` of non-digit, non-space
characters); an unknown unit is a `ParseError` spanning the unit text;
otherwise accumulate `num * ms` and continue.  Each iteration consumes at
least the leading digit, so `len + 1` fuel dominates every run. -/
def durationParseGo : Nat → StringReader → DecNum → Option (ParseRes DecNum × StringReader)
  | 0, _, _ => none
  | fuel + 1, r, total =>
    if isBase10Digit r.current then
      match numberParse r with
      | none => none
      | some (numOpt, r1) =>
        match numOpt with
        | none => some (.ok (.ofInt 0), r1)
        | some num =>
          if num.isZero then some (.ok (.ofInt 0), r1)
          else
            let ci := r1.idx
            match r1.collect (fun c => ¬ isBase10Digit c && c != ' ') with
            | none => none
            | some (unitCs, r2) =>
              let unit := String.mk unitCs
              match listGet UNIT2MS_MAP unit with
              | none => some (.err ("No time unit by name `" ++ unit ++ "`") ci r2.idx, r2)
              | some ms => durationParseGo fuel r2 (total.add (num.mul ms))
    else some (.ok total, r)

/-- `Parsers.Duration.parse` on a fresh reader over `cs`. -/
def durationParse (cs : List Char) : Option (ParseRes DecNum × StringReader) :=
  let r := StringReader.make cs
  durationParseGo (cs.length + 1) r (.ofInt 0)

/-- JS `Number.prototype.toString` on an exact decimal: the integer part
in plain decimal digits, then — only when the fractional part is
non-zero — a point and the fractional digits with trailing zeros
trimmed.  (`(1000).toString() = "1000"`, `(1.5).toString() = "1.5"`.) -/
def jsNumToString (d : DecNum) : String :=
  let p : Int := (10 : Int) ^ d.scale
  let q := d.mant / p
  let r := (d.mant % p).toNat
  if r = 0 then toString q
  else
    let rs := toString r
    let fracStr := String.mk (List.replicate (d.scale - rs.length) '0') ++ rs
    let trimmed := String.mk ((fracStr.toList.reverse.dropWhile (fun c => c = '0')).reverse)
    toString q ++ "." ++ trimmed

/-- `Parsers.Duration.emit`: `Duration` is built by
`newSyncParser<number>(ctx => ...)` with the emitter argument left at its
default `v => stringify(v)`, and `stringify` on a number is
`value.toString()` — the bare milliseconds with no unit appended. -/
def durationEmit (d : DecNum) : String :=
  jsNumToString d

/-! ## Command tree and dispatcher (src/src/services/command-service.ts)

The dispatcher model is synchronous: parsers return settled results.
The asynchronous tail of `dispatch` (awaiting pending parse results) is
modelled separately for claim C2 below. -/

/-- A command argument value: flag/argument results as they appear in the
context's tables.  `numV none` is a `NaN` number. -/
inductive CmdVal where
  | boolV (b : Bool)
  | numV (q : Option DecNum)
  | strV (s : String)
deriving DecidableEq

/-- A (synchronous) argument parser: reader in, parse result and advanced
reader out; `none` models divergence of an inner `collect`. -/
def ArgParser : Type :=
  StringReader → Option (ParseRes CmdVal × StringReader)

/-- `CommandFlag { name, aliases, type, isSwitch }`.  The
`defaultSupplier` only feeds `CommandContext.flag()` reads and is not
needed by any claim. -/
structure CommandFlag where
  fname : String
  aliases : List String
  ftype : Option ArgParser
  isSwitch : Bool

/-- The dispatch-relevant slice of `CommandContext`: the reader plus the
four tables the loop mutates.  (`command`, `nodeStack` and the Discord
payload fields do not influence any claim.) -/
structure CmdCtx where
  reader : StringReader
  registeredFlags : List (String × CommandFlag)
  flagResults : List (String × ParseRes CmdVal)
  argResults : List (String × ParseRes CmdVal)

/-- `CommandAssertionResult { failed, message }` (the `error` payload is
unused by the dispatcher). -/
structure CommandAssertionResult where
  failed : Bool
  message : String

/-- `CommandNode`: name, aliases, literal flag, argument parser,
children, flags, assertions, whether an executor is attached (the model
does not run executor bodies), and the prefix string (empty models the
source's `undefined`). -/
inductive CommandNode where
  | node (name : String) (aliases : List String) (literal : Bool)
      (argumentType : Option ArgParser)
      (children : List CommandNode)
      (flags : List CommandFlag)
      (assertions : List (CmdCtx → CommandAssertionResult))
      (hasExecutor : Bool)
      (prefixStr : String)

def CommandNode.name : CommandNode → String
  | .node n _ _ _ _ _ _ _ _ => n

def CommandNode.aliases : CommandNode → List String
  | .node _ a _ _ _ _ _ _ _ => a

def CommandNode.literal : CommandNode → Bool
  | .node _ _ l _ _ _ _ _ _ => l

def CommandNode.argumentType : CommandNode → Option ArgParser
  | .node _ _ _ t _ _ _ _ _ => t

def CommandNode.children : CommandNode → List CommandNode
  | .node _ _ _ _ c _ _ _ _ => c

def CommandNode.flags : CommandNode → List CommandFlag
  | .node _ _ _ _ _ f _ _ _ => f

def CommandNode.assertions : CommandNode → List (CmdCtx → CommandAssertionResult)
  | .node _ _ _ _ _ _ a _ _ => a

def CommandNode.hasExecutor : CommandNode → Bool
  | .node _ _ _ _ _ _ _ e _ => e

def CommandNode.prefixStr : CommandNode → String
  | .node _ _ _ _ _ _ _ _ p => p

/-! ### `CommandDispatcher.findNext` -/

/-- The token `findNext` tests literal children against:
`pushIndex(); collect(c => c != ' '); ... restore()`.  Restoring pops the
pushed index, so each literal test reads the same token and leaves the
reader exactly as it was; the model therefore reads it once. -/
def findNextToken (r : StringReader) : Option (String × StringReader) :=
  let rp := r.pushIndex
  match rp.collect (fun c => c != ' ') with
  | none => none
  | some (cs, r') => some (String.mk cs, r'.restore)

/-- The selection loop of `findNext` over the children, `it` being the
running selection: a literal child whose name equals the token is chosen
and the loop breaks; a non-literal child is recorded when the running
selection is absent or itself non-literal. -/
def findNextGo (tok : String) : List CommandNode → Option CommandNode → Option CommandNode
  | [], it => it
  | n :: rest, it =>
    if n.literal then
      if n.name = tok then some n
      else findNextGo tok rest it
    else
      match it with
      | none => findNextGo tok rest (some n)
      | some j => if ¬ j.literal then findNextGo tok rest (some n) else findNextGo tok rest it

/-- `findNext(ctx, currentNode)`: select the next child (literal match
first, argument fallback), then `skipWhitespace()`.  The selected node is
not consumed from the input here. -/
def findNext (r : StringReader) (children : List CommandNode) :
    Option (Option CommandNode × StringReader) :=
  match findNextToken r with
  | none => none
  | some (tok, r0) =>
    let sel := findNextGo tok children none
    match r0.skipWhitespace with
    | none => none
    | some r1 => some (sel, r1)

/-! ### `CommandDispatcher.dispatch` -/

/-- The observable slice of a `CommandContext` carried inside a
`CommandResult`: the two result tables. -/
structure CtxSnapshot where
  flagResults : List (String × ParseRes CmdVal)
  argResults : List (String × ParseRes CmdVal)
deriving DecidableEq

def CmdCtx.snap (ctx : CmdCtx) : CtxSnapshot :=
  ⟨ctx.flagResults, ctx.argResults⟩

/-- A thrown `CommandError` (message, `CommandErrorType` tag, span). -/
structure CommandErrorS where
  msg : String
  etype : String
  locStart : Int
  locEnd : Int
deriving DecidableEq

/-- The outcome of a dispatch, mirroring the `CommandResult` variants the
dispatcher can produce.  `uncaughtR` is the outer `catch` wrapping a
thrown error into `UncaughtErrorResult("System Error: ...")`;
`divergedR` is fuel exhaustion (a source-level infinite loop). -/
inductive DispatchResult where
  | failR (msg : String) (snap : CtxSnapshot)
  | assertionFailedR (msg : String) (snap : CtxSnapshot)
  | parseErrorsR (msg : String) (locStart locEnd : Int) (snap : CtxSnapshot)
  | uncaughtR (e : CommandErrorS) (snap : CtxSnapshot)
  | executedR (snap : CtxSnapshot)
  | noExecutorR (snap : CtxSnapshot)
  | divergedR
deriving DecidableEq

/-- The assertion sweep at the top of each loop iteration: first failure
wins. -/
def runAssertions (asserts : List (CmdCtx → CommandAssertionResult)) (ctx : CmdCtx) :
    Option String :=
  match asserts with
  | [] => none
  | a :: rest =>
    let res := a ctx
    if res.failed then some res.message else runAssertions rest ctx

/-- Register a node's flags into the context table, by name and by every
alias (`currentNode.flags.forEach(...)`). -/
def registerFlags (ctx : CmdCtx) (flags : List CommandFlag) : CmdCtx :=
  flags.foldl
    (fun ctx f =>
      { ctx with registeredFlags :=
          (f.aliases.foldl (fun m a => listSet m a f)
            (listSet ctx.registeredFlags f.fname f)) })
    ctx

/-- The flag-parsing loop: `while (reader.current() == '-')`.  Note that
the source skips whitespace once *before* the loop and never inside it;
after a switch flag the cursor rests on the separating space, so the loop
exits (this is what claim C3 exercises).  An unknown flag name throws a
`CommandError` of kind `UNKNOWN_FLAG`, which the outer boundary turns
into `uncaughtR`.  Each iteration consumes at least the `-`, so
`loopFuel` dominates every run. -/
def parseFlagsGo : Nat → CmdCtx → Except DispatchResult CmdCtx
  | 0, _ => .error .divergedR
  | fuel + 1, ctx =>
    if ctx.reader.current = '-' then
      let r1 := (ctx.reader.move 1).2
      let ci := r1.idx
      match r1.collect (fun c => c != ' ') with
      | none => .error .divergedR
      | some (nameCs, r2) =>
        let flagName := String.mk nameCs
        match listGet ctx.registeredFlags flagName with
        | none =>
          .error (.uncaughtR
            ⟨"No flag by alias `" ++ flagName ++ "`", "UNKNOWN_FLAG", ci, r2.idx - 1⟩
            ({ ctx with reader := r2 }).snap)
        | some f =>
          if f.isSwitch then
            parseFlagsGo fuel
              { ctx with reader := r2,
                         flagResults := listSet ctx.flagResults f.fname (.ok (.boolV true)) }
          else
            let r3 := (r2.move 1).2
            match f.ftype with
            | none =>
              .error (.uncaughtR ⟨"TypeError: flag.type is undefined", "SYSTEM", r3.idx, r3.idx⟩
                ({ ctx with reader := r3 }).snap)
            | some p =>
              match p r3 with
              | none => .error .divergedR
              | some (.err m ls le, r4) =>
                .error (.parseErrorsR m ls le ({ ctx with reader := r4 }).snap)
              | some (.ok v, r4) =>
                parseFlagsGo fuel
                  { ctx with reader := r4,
                             flagResults := listSet ctx.flagResults f.fname (.ok v) }
    else .ok ctx

/-- The tail of `dispatch` once the loop ends: with no pending results
(synchronous model) `awaitPromises` reports no failures, so a captured
executor runs with the resolved context, else `noExecutor`. -/
def dispatchFinishSync (hasExec : Bool) (ctx : CmdCtx) : DispatchResult :=
  if hasExec then .executedR ctx.snap else .noExecutorR ctx.snap

/-- The main `while (currentNode)` loop of `dispatch`, one recursive call
per iteration.  The source loop terminates because `findNext` always
descends to a child of the finite tree; the fuel argument is that bound
made explicit. -/
def dispatchLoop : Nat → CmdCtx → CommandNode → Bool → DispatchResult
  | 0, _, _, _ => .divergedR
  | fuel + 1, ctx, cur, hasExec =>
    if ctx.reader.current = EOS then dispatchFinishSync hasExec ctx
    else
      match runAssertions cur.assertions ctx with
      | some msg => .assertionFailedR msg ctx.snap
      | none =>
        -- parse current node: skip a literal, or run the argument parser
        let parsed : Except DispatchResult CmdCtx :=
          if cur.literal then
            match ctx.reader.collect (fun c => c != ' ') with
            | none => .error .divergedR
            | some (_, r') => .ok { ctx with reader := r' }
          else
            match cur.argumentType with
            | none =>
              .error (.uncaughtR ⟨"TypeError: argumentType is undefined", "SYSTEM",
                ctx.reader.idx, ctx.reader.idx⟩ ctx.snap)
            | some p =>
              match p ctx.reader with
              | none => .error .divergedR
              | some (.err m ls le, r') =>
                .error (.parseErrorsR m ls le ({ ctx with reader := r' }).snap)
              | some (.ok v, r') =>
                .ok { ctx with reader := r',
                               argResults := listSet ctx.argResults cur.name (.ok v) }
        match parsed with
        | .error res => res
        | .ok ctx1 =>
          let ctx2 := registerFlags ctx1 cur.flags
          match ctx2.reader.skipWhitespace with
          | none => .divergedR
          | some rw =>
            match parseFlagsGo rw.loopFuel { ctx2 with reader := rw } with
            | .error res => res
            | .ok ctx3 =>
              let hasExec' := hasExec || cur.hasExecutor
              match findNext ctx3.reader cur.children with
              | none => .divergedR
              | some (none, r') =>
                if r'.current ≠ EOS then
                  match r'.collect (fun c => c != ' ') with
                  | none => .divergedR
                  | some (sCs, r'') =>
                    .failR ("No subcommand by name `" ++ String.mk sCs ++ "`")
                      ({ ctx3 with reader := r'' }).snap
                else dispatchFinishSync hasExec' { ctx3 with reader := r' }
              | some (some c, r') =>
                dispatchLoop fuel { ctx3 with reader := r' } c hasExec'

/-- The dispatcher state: the `prefix + name/alias → node` command map
and the standard prefix. -/
structure CommandDispatcher where
  commandMap : List (String × CommandNode)
  standardPfx : String

/-- `CommandDispatcher.register`: resolve the node's prefix (falling back
to the standard prefix when unset), then map `prefix + name` and every
`prefix + alias` to the node. -/
def CommandDispatcher.register (d : CommandDispatcher) (n : CommandNode) : CommandDispatcher :=
  let pfx := if n.prefixStr ≠ "" then n.prefixStr else d.standardPfx
  { d with commandMap :=
      (n.aliases.foldl (fun m a => listSet m (pfx ++ a) n)
        (listSet d.commandMap (pfx ++ n.name) n)) }

/-- `CommandDispatcher.dispatch` on a raw input line.  `fuel` bounds the
iterations of the traversal loop (the source bound is the tree depth);
each concrete theorem supplies a sufficient constant. -/
def CommandDispatcher.dispatch (d : CommandDispatcher) (fuel : Nat) (input : List Char) :
    DispatchResult :=
  let r := StringReader.make input
  let rp := r.pushIndex
  match rp.collect (fun c => c != ' ' && c != '\n') with
  | none => .divergedR
  | some (cs, r1) =>
    let commandName := String.mk (cs.map Char.toLower)
    let r2 := r1.restore
    match listGet d.commandMap commandName with
    | none => .failR ("No command by name `" ++ commandName ++ "`") ⟨[], []⟩
    | some root =>
      dispatchLoop fuel ⟨r2, [], [], []⟩ root false

/-! ## Awaiting asynchronous arguments (claim C2)

`CommandContext.awaitPromises` joins every registered pending
`ParseResult` with `Promise.all` and inspects the settled results; the
tail of `dispatch` then runs the executor only when no failure was
collected.  A settled pending result carries the fields `ParseResult`
copies on resolution (`value`, `error`, `uncaughtError`); in the
repository every pending result settles through `completedParse` /
`failedParse`, so its `uncaughtError` is never set (stated as a
hypothesis by the C2 theorem). -/

/-- A settled asynchronous `ParseResult<T>`. -/
structure SettledParseResult (V : Type) where
  value : Option V := none
  error : Option String := none
  uncaughtError : Option String := none
deriving DecidableEq

/-- A settled result that represents a failure (either failure field of
the `ParseResult` tagged union). -/
def SettledParseResult.isFailure {V : Type} (r : SettledParseResult V) : Bool :=
  r.error.isSome || r.uncaughtError.isSome

/-- The fail-like `CommandResult` slice reachable from `awaitPromises`:
`ParseErrorsResult`, `UncaughtErrorResult` and `MutliFailResult` (sic —
the source class name is misspelled). -/
inductive FailLikeResult where
  | parseErrorsRes (e : String)
  | uncaughtRes (e : String)
  | multiFailRes (rs : List FailLikeResult)

/-- `unwrap()`: a multi result flattens into its sub-results' leaves,
every other result is its own single leaf. -/
def FailLikeResult.unwrap : FailLikeResult → List FailLikeResult
  | .multiFailRes rs => (rs.attach.map (fun x => x.1.unwrap)).flatten
  | .parseErrorsRes e => [.parseErrorsRes e]
  | .uncaughtRes e => [.uncaughtRes e]
termination_by r => sizeOf r
decreasing_by
  simp_wf
  have h := List.sizeOf_lt_of_mem x.2
  omega

/-- `toErrorResult(ctx, res)`: a parse error becomes
`ParseErrorsResult`, an uncaught error becomes `UncaughtErrorResult`,
anything else is `null` (`none`). -/
def toErrorResult {V : Type} (r : SettledParseResult V) : Option FailLikeResult :=
  match r.error with
  | some e => some (.parseErrorsRes e)
  | none =>
    match r.uncaughtError with
    | some e => some (.uncaughtRes ("Uncaught error while parsing: " ++ e))
    | none => none

/-- `CommandContext.awaitPromises`, given the settled values of the
registered promises: filter the results carrying a parse `error`; a
non-empty filtrate is aggregated into a `MutliFailResult` (on it
`toErrorResult` never returns `null`, hence `filterMap`), otherwise no
result is produced and dispatch may proceed. -/
def awaitPromises {V : Type} (settled : List (SettledParseResult V)) : Option FailLikeResult :=
  let failed := settled.filter (fun r => r.error.isSome)
  if failed.length > 0 then
    some (.multiFailRes (failed.filterMap toErrorResult))
  else none

/-- Whether the executor ran, and with what context. -/
inductive ExecOutcome (C : Type) where
  | aborted (res : FailLikeResult)
  | executed (ctx : C)

/-- The asynchronous tail of `dispatch`
(`ctx.awaitPromises().then(res => res.result ? res.result : executor(res.context))`).
The returned `Nat` counts executor invocations. -/
def dispatchAwaitAndRun {C V : Type} (ctx : C) (settled : List (SettledParseResult V)) :
    ExecOutcome C × Nat :=
  match awaitPromises settled with
  | some res => (.aborted res, 0)
  | none => (.executed ctx, 1)

/-! ## The interaction engine (src/unnamed/part_005)

`Interaction.trigger`, `destroy`, the builder chain and the manager
registry.  Conditions and the lifetime receive the `InteractionContext`
computed by `trigger` — which the source leaves `undefined` when the
caller already passes a wrapped context (claim C8), hence the `Option`.
The source context stores the `Interaction` object itself; the model
stores its unique id.  Actions are identified by labels; `trigger`
returns the labels it executed, in order.  Trigger components are
likewise labels, their `register`/`unregister` side effects counted in
the manager state. -/

/-- `InteractionContext { interaction, arguments }` (the interaction
referenced by its id). -/
structure InteractionContext (E : Type) where
  interactionId : Nat
  arguments : E
deriving DecidableEq

/-- The `Interaction` fields the engine reads.  `lifetime`,
`conditions` take the possibly-undefined context; `triggers` and the
action list are labels. -/
structure Interaction (E : Type) where
  id : Nat
  name : Option String := none
  persistent : Bool := false
  lifetime : Option (Option (InteractionContext E) → Bool) := none
  triggers : Option Nat := none
  conditions : List (Option (InteractionContext E) → Bool) := []
  actions : List Nat := []

/-- The registry slice of `InteractionManager` plus counters for the
trigger component's `register`/`unregister` calls. -/
structure ManagerState where
  interactionIds : List Nat := []
  interactionsByName : List (String × Nat) := []
  registerCalls : Nat := 0
  unregisterCalls : Nat := 0
deriving DecidableEq

/-- Key insert with `Map` semantics (at most one entry per key). -/
def addKey (l : List Nat) (k : Nat) : List Nat :=
  if k ∈ l then l else l ++ [k]

/-- `InteractionManager.register`: index the interaction by id, and by
name when it has one. -/
def managerRegister {E : Type} (st : ManagerState) (i : Interaction E) : ManagerState :=
  { st with
    interactionIds := addKey st.interactionIds i.id,
    interactionsByName :=
      match i.name with
      | some n => listSet st.interactionsByName n i.id
      | none => st.interactionsByName }

/-- `Interaction.destroy`: `disable()` (which calls
`this.triggers.unregister(this)` — a `TypeError` when no trigger was
ever set, modelled as `none`), then delete from both registry maps
(`delete(undefined)` on an unnamed interaction is a no-op). -/
def Interaction.destroy {E : Type} (i : Interaction E) (st : ManagerState) :
    Option ManagerState :=
  match i.triggers with
  | none => none
  | some _ =>
    some
      { st with
        unregisterCalls := st.unregisterCalls + 1,
        interactionIds := st.interactionIds.filter (fun k => k ≠ i.id),
        interactionsByName :=
          match i.name with
          | some n => listEraseKey st.interactionsByName n
          | none => st.interactionsByName }

/-- The context `Interaction.trigger` computes from its argument: raw
event arguments are wrapped into a fresh `InteractionContext`; an
already-wrapped context leaves `ctx` undefined, because the source's
`if (!(ctxRaw instanceof InteractionContext))` has no else branch. -/
def Interaction.mkCtx {E : Type} (i : Interaction E)
    (ctxRaw : InteractionContext E ⊕ E) : Option (InteractionContext E) :=
  match ctxRaw with
  | .inr raw => some ⟨i.id, raw⟩
  | .inl _ => none

/-- What one `trigger()` call did: the context it passed to
checks/executes, the action labels it ran, and the manager state after
lifetime handling. -/
structure TriggerOutcome (E : Type) where
  ctxPassed : Option (InteractionContext E)
  executed : List Nat
  state : ManagerState

/-- `Interaction.trigger(ctxRaw)`: evaluate the conditions in order,
returning at the first failure; then run every action in order; then
destroy unless a lifetime is set and asks to persist.  `none` models the
`TypeError` thrown by `destroy` on an interaction without a trigger
component. -/
def Interaction.trigger {E : Type} (i : Interaction E) (st : ManagerState)
    (ctxRaw : InteractionContext E ⊕ E) : Option (TriggerOutcome E) :=
  let ctx := i.mkCtx ctxRaw
  if i.conditions.all (fun c => c ctx) then
    let afterLifetime : Option ManagerState :=
      match i.lifetime with
      | none => i.destroy st
      | some shouldPersist => if shouldPersist ctx then some st else i.destroy st
    match afterLifetime with
    | none => none
    | some st' => some ⟨ctx, i.actions, st'⟩
  else some ⟨ctx, [], st⟩

/-- `InteractionManager.builder<E>()`: a fresh interaction with the
generated id (`Date.now() ^ Math.random()`, passed in as `newId`),
registered immediately; no lifetime, no trigger, no conditions, no
actions. -/
def managerBuilder (E : Type) (st : ManagerState) (newId : Nat) :
    Interaction E × ManagerState :=
  let i : Interaction E := { id := newId }
  (i, managerRegister st i)

/-- `Interaction.when(trigger)`. -/
def Interaction.when {E : Type} (i : Interaction E) (t : Nat) : Interaction E :=
  { i with triggers := some t }

/-- `Interaction.onlyIf(condition)`. -/
def Interaction.onlyIf {E : Type} (i : Interaction E)
    (c : Option (InteractionContext E) → Bool) : Interaction E :=
  { i with conditions := i.conditions ++ [c] }

/-- `Interaction.then(action)`. -/
def Interaction.thenDo {E : Type} (i : Interaction E) (a : Nat) : Interaction E :=
  { i with actions := i.actions ++ [a] }

/-- `Interaction.once()`: a lifetime whose `shouldPersist` is constantly
false. -/
def Interaction.once {E : Type} (i : Interaction E) : Interaction E :=
  { i with lifetime := some (fun _ => false) }

/-- `Interaction.create()` = `enable()`: `this.triggers.register(this)`
(a `TypeError` when no trigger was set). -/
def Interaction.create {E : Type} (i : Interaction E) (st : ManagerState) :
    Option ManagerState :=
  match i.triggers with
  | none => none
  | some _ => some { st with registerCalls := st.registerCalls + 1 }

/-! ## Interaction serialization (src/unnamed/part_005)

`newSerializationLogic` / `serializeInteraction` /
`deserializeInteraction` / `loadAllPersistentData`.  This is the
data-identity view of a component: its `type()`/`name()` tags, the
serializability and parameterization flags, and the parameter bag that
`ParamCondition`/`ParamAction` save and restore
(`Object.entries(this.params)` copied field by field).  Parameter values
are JSON scalars; JS guarantees the keys of one object are distinct. -/

/-- A JSON scalar parameter value. -/
inductive SVal where
  | strV (v : String)
  | intV (v : Int)
  | boolV (v : Bool)
deriving DecidableEq

/-- The fields of a plain JS object (keys distinct by construction in the
source; stated as a hypothesis where a proof needs it). -/
abbrev JFields := List (String × SVal)

/-- A serialized component reference: either the bare `type::name` key
string or the `{key, ...parameters}` object. -/
inductive CompDoc where
  | strDoc (v : String)
  | objDoc (fields : JFields)
deriving DecidableEq

/-- The serialization view of an `InteractionComponent`. -/
structure SComponent where
  ctype : String
  cname : String
  serializable : Bool := true
  parameterized : Bool := false
  params : JFields := []
deriving DecidableEq

/-- `InteractionComponent.key()`: `type() + "::" + name()`. -/
def SComponent.key (c : SComponent) : String :=
  c.ctype ++ "::" ++ c.cname

/-- The base-component registry (`InteractionManager.baseComponents`). -/
abbrev Registry := List (String × SComponent)

/-- `InteractionManager.registerBaseComponent`. -/
def registerBaseComponent (reg : Registry) (c : SComponent) : Registry :=
  listSet reg c.key c

/-- `createWithParameters` as implemented by `ParamCondition` /
`ParamAction`: copy every field of the data object except `key` into the
parameter bag of a fresh instance of the template. -/
def SComponent.createWithParameters (base : SComponent) (src : JFields) : SComponent :=
  { base with params := src.filter (fun e => e.1 ≠ "key") }

/-- `saveComponent(component)`: unserializable components save as the
`"ERRUNSERIALIZABLE"` sentinel, non-parameterized ones as their bare key
string, parameterized ones as `{key: component.key()}` into which
`saveParameters` then assigns every parameter field (overwriting `key`
itself if the bag happens to contain a field of that name). -/
def saveComponent (c : SComponent) : CompDoc :=
  if ¬ c.serializable then .strDoc "ERRUNSERIALIZABLE"
  else if ¬ c.parameterized then .strDoc c.key
  else .objDoc (c.params.foldl (fun o kv => listSet o kv.1 kv.2) [("key", .strV c.key)])

/-- `loadComponent(data)`: a string is looked up in the registry (an
unknown key yields `undefined` without throwing); an object has its
`key` field looked up, a missing registry entry making the
`.createWithParameters` call a thrown `TypeError`.  The default
`InteractionComponent.createWithParameters` returns `undefined`, so an
object reference to a non-parameterized base loads as `undefined`. -/
def loadComponent (reg : Registry) (d : CompDoc) : Except String (Option SComponent) :=
  match d with
  | .strDoc v => .ok (listGet reg v)
  | .objDoc fields =>
    match
      match listGet fields "key" with
      | some (.strV v) => listGet reg v
      | _ => none
    with
    | none => .error "TypeError: getBaseComponent(data.key) is undefined"
    | some base =>
      .ok (if base.parameterized then some (base.createWithParameters fields) else none)

/-- A component the serialization protocol can faithfully restore from
the registry: serializable; its parameter fields distinct (a JS-object
invariant) and none of them named `key` (the claim-C6 amendment); and
its `type::name` key known to the registry — for a non-parameterized
base component the registry entry is the component itself, for a
parameterized one it is a template with the same tags. -/
def compWellFormed (reg : Registry) (c : SComponent) : Prop :=
  c.serializable = true ∧
  (c.params.map Prod.fst).Nodup ∧
  "key" ∉ c.params.map Prod.fst ∧
  (if c.parameterized = true then
     ∃ tmpl, listGet reg c.key = some tmpl ∧ tmpl.ctype = c.ctype ∧
       tmpl.cname = c.cname ∧ tmpl.serializable = true ∧ tmpl.parameterized = true
   else listGet reg c.key = some c)

/-- The serialization view of an `Interaction`: components may be
`undefined` (e.g. restored from an unknown bare key), and
deserialization always marks the result persistent with the
`PERSISTENT` lifetime (recorded as `lifetimePersistent`). -/
structure SInteraction where
  id : Int
  name : Option String := none
  persistent : Bool := false
  lifetimePersistent : Bool := false
  triggers : Option SComponent := none
  conditions : List (Option SComponent) := []
  actions : List (Option SComponent) := []
deriving DecidableEq

/-- The persisted document of one interaction. -/
structure InteractionDoc where
  name : Option String
  id : Int
  trigger : CompDoc
  conditions : List CompDoc
  actions : List CompDoc
deriving DecidableEq

/-- Save a component list; an `undefined` component makes
`saveComponent` throw (`component.isSerializable()` on `undefined`),
which `serializeInteraction` catches — modelled as `none`. -/
def saveComponents : List (Option SComponent) → Option (List CompDoc)
  | [] => some []
  | none :: _ => none
  | some c :: rest => (saveComponents rest).map (fun ds => saveComponent c :: ds)

/-- Load a component list, stopping at the first thrown error. -/
def loadComponents (reg : Registry) : List CompDoc → Except String (List (Option SComponent))
  | [] => .ok []
  | d :: rest =>
    match loadComponent reg d with
    | .error e => .error e
    | .ok c =>
      match loadComponents reg rest with
      | .error e => .error e
      | .ok cs => .ok (c :: cs)

/-- `InteractionManager.serializeInteraction`: build
`{name, id, trigger, conditions, actions}`; any exception is caught,
logged and turned into `undefined`. -/
def serializeInteraction (i : SInteraction) : Option InteractionDoc :=
  match i.triggers with
  | none => none
  | some t =>
    match saveComponents i.conditions, saveComponents i.actions with
    | some cs, some acts =>
      some ⟨i.name, i.id, saveComponent t, cs, acts⟩
    | _, _ => none

/-- `InteractionManager.deserializeInteraction`: rebuild the interaction
from the document; any exception is caught, logged
(`"Failed to load interaction ..."`) and turned into `undefined`. -/
def deserializeInteraction (reg : Registry) (src : InteractionDoc) : Option SInteraction :=
  match loadComponent reg src.trigger with
  | .error _ => none
  | .ok trig =>
    match loadComponents reg src.conditions with
    | .error _ => none
    | .ok conds =>
      match loadComponents reg src.actions with
      | .error _ => none
      | .ok acts =>
        some { id := src.id, name := src.name, persistent := true,
               lifetimePersistent := true, triggers := trig,
               conditions := conds, actions := acts }

/-- The registry/bookkeeping state mutated by `loadAllPersistentData`. -/
structure LoadState where
  registeredIds : List Int := []
  registeredByName : List (String × Int) := []
  triggerRegisters : Nat := 0
deriving DecidableEq

/-- Key insert with `Map` semantics for `Int` ids. -/
def addKeyInt (l : List Int) (k : Int) : List Int :=
  if k ∈ l then l else l ++ [k]

/-- `InteractionManager.register` on the load-time state (`register`
returns immediately on `undefined`). -/
def loadRegister (st : LoadState) (io : Option SInteraction) : LoadState :=
  match io with
  | none => st
  | some i =>
    { st with
      registeredIds := addKeyInt st.registeredIds i.id,
      registeredByName :=
        match i.name with
        | some n => listSet st.registeredByName n i.id
        | none => st.registeredByName }

/-- The `forEach` body of `loadAllPersistentData`: deserialize, register,
then call `interaction.create()` — unconditionally, so a failed
deserialization (`undefined`) throws a `TypeError` here, and an
interaction restored with an `undefined` trigger component throws inside
`enable()`.  Either exception escapes `loadAllPersistentData` and aborts
the remaining entries; the state reached so far is kept, the second
component reports the escaped error. -/
def loadAllPersistentData (reg : Registry) :
    List InteractionDoc → LoadState → LoadState × Option String
  | [], st => (st, none)
  | d :: rest, st =>
    let io := deserializeInteraction reg d
    let st1 := loadRegister st io
    match io with
    | none => (st1, some "TypeError: cannot read create of undefined")
    | some i =>
      match i.triggers with
      | none => (st1, some "TypeError: cannot read register of undefined")
      | some _ =>
        loadAllPersistentData reg rest { st1 with triggerRegisters := st1.triggerRegisters + 1 }

/-! ## Concrete instances exercised by the claim theorems -/

/-- `Parsers.Number` as a command argument/flag parser (always a
successful result, `NaN` included, as in the source). -/
def numberArgParser : ArgParser := fun r =>
  (numberParse r).map (fun x => (ParseRes.ok (CmdVal.numV x.1), x.2))

/-- A literal child named `get`. -/
def getNodeC1 : CommandNode := .node "get" [] true none [] [] [] false ""

/-- A literal child named `list`. -/
def listNodeC1 : CommandNode := .node "list" [] true none [] [] [] false ""

/-- An argument (non-literal) child. -/
def argNodeC1 : CommandNode := .node "value" [] false (some numberArgParser) [] [] [] false ""

/-- Children with the argument node first, so it is the running
selection before the literal `get` is even tested. -/
def childrenC1 : List CommandNode := [argNodeC1, getNodeC1, listNodeC1]

/-- A reader whose next token is `get`. -/
def readerC1 : StringReader := StringReader.make "get".toList

/-- Settled results of two independent asynchronous arguments, the first
failed. -/
def settledC2 : List (SettledParseResult Nat) :=
  [{ value := none, error := some "No user by `xyz`" }, { value := some 1 }]

/-- The switch flag `-a`. -/
def flagAC3 : CommandFlag := ⟨"a", [], none, true⟩

/-- The number-valued flag `-b`. -/
def flagBC3 : CommandFlag := ⟨"b", [], some numberArgParser, false⟩

/-- The base command `cmd`, registering both flags, with an executor. -/
def cmdNodeC3 : CommandNode := .node "cmd" [] true none [] [flagAC3, flagBC3] [] true ""

/-- A dispatcher (empty standard prefix) with `cmd` registered. -/
def dispC3 : CommandDispatcher := (CommandDispatcher.mk [] "").register cmdNodeC3

/-- `.when(T).onlyIf(C1).onlyIf(C2).then(A1).once()`-shaped interaction
with both conditions passing. -/
def interactionC4 : Interaction Unit :=
  { id := 101, name := some "confirm", lifetime := some (fun _ => false),
    triggers := some 3, conditions := [fun _ => true, fun _ => true], actions := [7] }

/-- A manager state in which `interactionC4` is registered. -/
def stateC4 : ManagerState :=
  { interactionIds := [101], interactionsByName := [("confirm", 101)] }

/-- A registry-known, non-parameterized trigger component. -/
def trigBase : SComponent := { ctype := "trigger", cname := "t" }

/-- A registry holding only `trigBase`. -/
def regC5 : Registry := registerBaseComponent [] trigBase

/-- A persisted entry whose trigger references the unknown key
`trigger::nope`; deserialization throws inside `loadComponent`. -/
def corruptDocC5 : InteractionDoc :=
  ⟨some "bad", 1, .objDoc [("key", .strV "trigger::nope")], [], []⟩

/-- A well-formed persisted entry. -/
def goodDocC5 : InteractionDoc := ⟨some "good", 2, .strDoc "trigger::t", [], []⟩

/-- What `goodDocC5` deserializes to on its own. -/
def goodInteractionC5 : SInteraction :=
  { id := 2, name := some "good", persistent := true, lifetimePersistent := true,
    triggers := some trigBase, conditions := [], actions := [] }

/-- A parameterized condition template (registry instance, empty bag). -/
def condTemplateC6 : SComponent :=
  { ctype := "condition", cname := "isMessage", parameterized := true }

/-- A parameterized action template (registry instance, empty bag). -/
def actTemplateC6 : SComponent :=
  { ctype := "action", cname := "giveRole", parameterized := true }

/-- The base-component registry for the round-trip claims. -/
def regC6 : Registry :=
  registerBaseComponent (registerBaseComponent (registerBaseComponent [] trigBase) condTemplateC6)
    actTemplateC6

/-- A condition instance whose parameter bag contains a field literally
named `key` — it overwrites the serialized discriminator. -/
def badCondC6 : SComponent :=
  { ctype := "condition", cname := "isMessage", parameterized := true,
    params := [("key", SVal.strV "evil")] }

/-- An interaction containing `badCondC6`. -/
def badInteractionC6 : SInteraction :=
  { id := 1, name := some "bad", triggers := some trigBase,
    conditions := [some badCondC6], actions := [] }

/-- The document `badInteractionC6` serializes to: the component's `key`
field clobbered the `condition::isMessage` discriminator. -/
def badDocC6 : InteractionDoc :=
  ⟨some "bad", 1, .strDoc "trigger::t", [.objDoc [("key", SVal.strV "evil")]], []⟩

/-- A benign parameterized condition instance. -/
def goodCondC6 : SComponent :=
  { ctype := "condition", cname := "isMessage", parameterized := true,
    params := [("id", SVal.strV "123")] }

/-- A benign parameterized action instance. -/
def goodActC6 : SComponent :=
  { ctype := "action", cname := "giveRole", parameterized := true,
    params := [("id", SVal.strV "456")] }

/-- A round-trippable interaction (base trigger, parameterized condition
and action). -/
def goodInteractionC6 : SInteraction :=
  { id := 2, name := some "good", triggers := some trigBase,
    conditions := [some goodCondC6], actions := [some goodActC6] }

/-- An interaction whose single condition tests whether the context it
receives is defined. -/
def interactionC8 : Interaction Nat :=
  { id := 42, lifetime := some (fun _ => true), triggers := some 0,
    conditions := [fun ctx => ctx.isSome], actions := [7] }

/-- An already-wrapped `InteractionContext` for `interactionC8`. -/
def wrappedCtxC8 : InteractionContext Nat := ⟨42, 5⟩

/-- A two-character reader for the cursor-range counterexample. -/
def readerC9 : StringReader := StringReader.make "ab".toList

/-- A unit-step operation sequence for the amended-claim witness. -/
def opsC9 : List ReaderOp :=
  [.nextN 1, .collectOp (fun c => c != ' ') (fun _ => false), .backN 1, .skipWs]

/-- `manager.builder().when(4).onlyIf(...).then(9)` — no `once()` or
`persist()` call, so the lifetime field is never set. -/
def interactionC10 : Interaction Unit :=
  (((managerBuilder Unit { } 55).1.when 4).onlyIf (fun _ => true)).thenDo 9

/-- The manager state right after the builder registered the fresh
interaction. -/
def stateC10 : ManagerState := (managerBuilder Unit { } 55).2

/-- Like `interactionC4` but with a failing second condition. -/
def interactionC4fail : Interaction Unit :=
  { id := 101, name := some "confirm", lifetime := some (fun _ => false),
    triggers := some 3, conditions := [fun _ => true, fun _ => false], actions := [7] }

/-!
# Theorems
-/

/-- Claim C3 (code bug): with a switch flag `-a` and a number flag `-b`
registered on `cmd`, dispatching `cmd -a -b 5` does *not* record both
flags.  The flag loop skips whitespace only once, before its first
iteration, so after the switch `-a` the cursor rests on the separating
space and the loop exits; dispatch then fails with
"No subcommand by name `-b`" having recorded only `a = true`.  Each flag
does parse when it is the only one (second and third conjuncts), so the
loss is specific to the missing whitespace skip between flags. -/
theorem c3_second_flag_never_parsed :
    dispC3.dispatch 10 "cmd -a -b 5".toList =
      .failR "No subcommand by name `-b`" ⟨[("a", .ok (.boolV true))], []⟩ ∧
    dispC3.dispatch 10 "cmd -a".toList = .executedR ⟨[("a", .ok (.boolV true))], []⟩ ∧
    dispC3.dispatch 10 "cmd -b 5".toList =
      .executedR ⟨[("b", .ok (.numV (some (.ofInt 5))))], []⟩ := by
  decide

/-- If some literal child of the list carries the token as its name, the
`findNext` selection loop picks a literal child carrying it, whatever the
running selection. -/
theorem findNextGo_literal_found (tok : String) :
    ∀ (l : List CommandNode) (it : Option CommandNode),
      (∃ c ∈ l, c.literal = true ∧ c.name = tok) →
      ∃ c, findNextGo tok l it = some c ∧ c.literal = true ∧ c.name = tok := by
  intro l
  induction l with
  | nil =>
    intro it h
    rcases h with ⟨c, hc, -⟩
    cases hc
  | cons n rest ih =>
    intro it h
    by_cases hn : n.literal = true
    · by_cases hname : n.name = tok
      · exact ⟨n, by simp [findNextGo, hn, hname], hn, hname⟩
      · rcases h with ⟨c, hc, hcl, hcn⟩
        rcases List.mem_cons.mp hc with rfl | hcr
        · exact absurd hcn hname
        · rcases ih it ⟨c, hcr, hcl, hcn⟩ with ⟨c', h1, h2, h3⟩
          exact ⟨c', by simp [findNextGo, hn, hname, h1], h2, h3⟩
    · rcases h with ⟨c, hc, hcl, hcn⟩
      rcases List.mem_cons.mp hc with rfl | hcr
      · exact absurd hcl hn
      · rcases it with - | j
        · rcases ih (some n) ⟨c, hcr, hcl, hcn⟩ with ⟨c', h1, h2, h3⟩
          exact ⟨c', by simp [findNextGo, hn, h1], h2, h3⟩
        · by_cases hj : j.literal = true
          · rcases ih (some j) ⟨c, hcr, hcl, hcn⟩ with ⟨c', h1, h2, h3⟩
            exact ⟨c', by simp [findNextGo, hn, hj, h1], h2, h3⟩
          · rcases ih (some n) ⟨c, hcr, hcl, hcn⟩ with ⟨c', h1, h2, h3⟩
            exact ⟨c', by simp [findNextGo, hn, hj, h1], h2, h3⟩

/-- If the `findNext` selection loop settles on a non-literal node, no
literal child of the list carries the token as its name. -/
theorem findNextGo_nonliteral_no_match (tok : String) :
    ∀ (l : List CommandNode) (it : Option CommandNode) (c : CommandNode),
      findNextGo tok l it = some c → c.literal = false →
      ∀ d ∈ l, d.literal = true → d.name ≠ tok := by
  intro l
  induction l with
  | nil =>
    intro it c _ _ d hd
    cases hd
  | cons n rest ih =>
    intro it c h hc d hd hdl
    by_cases hn : n.literal = true
    · by_cases hname : n.name = tok
      · rw [show findNextGo tok (n :: rest) it = some n by simp [findNextGo, hn, hname]] at h
        cases h
        rw [hn] at hc
        cases hc
      · rcases List.mem_cons.mp hd with rfl | hdr
        · exact hname
        · rw [show findNextGo tok (n :: rest) it = findNextGo tok rest it by
            simp [findNextGo, hn, hname]] at h
          exact ih it c h hc d hdr hdl
    · rcases List.mem_cons.mp hd with rfl | hdr
      · exact absurd hdl hn
      · rcases it with - | j
        · rw [show findNextGo tok (n :: rest) none = findNextGo tok rest (some n) by
            simp [findNextGo, hn]] at h
          exact ih (some n) c h hc d hdr hdl
        · by_cases hj : j.literal = true
          · rw [show findNextGo tok (n :: rest) (some j) = findNextGo tok rest (some j) by
              simp [findNextGo, hn, hj]] at h
            exact ih (some j) c h hc d hdr hdl
          · rw [show findNextGo tok (n :: rest) (some j) = findNextGo tok rest (some n) by
              simp [findNextGo, hn, hj]] at h
            exact ih (some n) c h hc d hdr hdl

/-- Claim C1: in `CommandDispatcher.findNext`, when the next input token
(as read by the restore-on-mismatch literal test) exactly equals a
literal child's name, a literal child with that name is selected — never
the argument child; and a non-literal (argument) child is selected only
when no literal child's name matches the token. -/
theorem c1_literal_precedence (r r0 r1 : StringReader) (children : List CommandNode)
    (tok : String)
    (htok : findNextToken r = some (tok, r0))
    (hws : r0.skipWhitespace = some r1) :
    ((∃ c ∈ children, c.literal = true ∧ c.name = tok) →
      ∃ c, findNext r children = some (some c, r1) ∧ c.literal = true ∧ c.name = tok) ∧
    (∀ c, findNext r children = some (some c, r1) → c.literal = false →
      ∀ d ∈ children, d.literal = true → d.name ≠ tok) := by
  have hfn : findNext r children = some (findNextGo tok children none, r1) := by
    simp [findNext, htok, hws]
  constructor
  · intro h
    rcases findNextGo_literal_found tok children none h with ⟨c, h1, h2, h3⟩
    refine ⟨c, ?_, h2, h3⟩
    rw [hfn, h1]
  · intro c hres hc
    rw [hfn] at hres
    have hgo : findNextGo tok children none = some c := by
      simp only [Option.some.injEq, Prod.mk.injEq] at hres
      exact hres.1
    exact findNextGo_nonliteral_no_match tok children none c hgo hc

/-- Witness for C1: with literal children `get`,`list`, an argument
child listed first, and input token `get`, the literal `get` child is
selected. -/
theorem c1_witness :
    ∃ c, findNext readerC1 childrenC1 = some (some c, readerC1) ∧
      c.literal = true ∧ c.name = "get" := by
  have h := c1_literal_precedence readerC1 readerC1 readerC1 childrenC1 "get"
    (by decide) (by decide)
  exact h.1 ⟨getNodeC1, by simp [childrenC1], rfl, rfl⟩

/-- `unwrap()` of a `MutliFailResult` holding one `ParseErrorsResult`
leaf is exactly that leaf. -/
theorem unwrap_multi_single_parse (e : String) :
    (FailLikeResult.multiFailRes [.parseErrorsRes e]).unwrap = [.parseErrorsRes e] := by
  simp [FailLikeResult.unwrap]

/-- Claim C2: once the pending argument results of a dispatch have
settled (in the repository they settle through `completedParse` /
`failedParse`, so `uncaughtError` is never set — the `hreach`
hypothesis), if at least one settled as a failure the executor is not
invoked (invocation count 0) and the dispatch aborts with a single
`MutliFailResult` aggregating exactly the failed results — with exactly
one failed result, `unwrap()` is exactly the one leaf carrying that one
error; if none failed, the executor is invoked exactly once with the
resolved context. -/
theorem c2_failfast_aggregation {C V : Type} (ctx : C) (settled : List (SettledParseResult V))
    (hreach : ∀ r ∈ settled, r.uncaughtError = none) :
    ((∃ r ∈ settled, r.isFailure = true) →
      (dispatchAwaitAndRun ctx settled).2 = 0 ∧
      (dispatchAwaitAndRun ctx settled).1 =
        ExecOutcome.aborted (.multiFailRes
          ((settled.filter (fun r => r.isFailure)).filterMap toErrorResult)) ∧
      (∀ rf, settled.filter (fun r => r.isFailure) = [rf] →
        ∃ e, rf.error = some e ∧
          (dispatchAwaitAndRun ctx settled).1 =
            ExecOutcome.aborted (.multiFailRes [.parseErrorsRes e]) ∧
          (FailLikeResult.multiFailRes [.parseErrorsRes e]).unwrap = [.parseErrorsRes e])) ∧
    ((∀ r ∈ settled, r.isFailure = false) →
      dispatchAwaitAndRun ctx settled = (ExecOutcome.executed ctx, 1)) := by
  have hfilter : settled.filter (fun r => r.isFailure) =
      settled.filter (fun r => r.error.isSome) := by
    apply List.filter_congr
    intro x hx
    simp [SettledParseResult.isFailure, hreach x hx]
  constructor
  · intro h
    rcases h with ⟨r0, hr0, hf0⟩
    have herr : r0.error.isSome = true := by
      have hu := hreach r0 hr0
      simpa [SettledParseResult.isFailure, hu] using hf0
    have hmem : r0 ∈ settled.filter (fun r => r.error.isSome) :=
      List.mem_filter.mpr ⟨hr0, herr⟩
    have hlen : 0 < (settled.filter (fun r => r.error.isSome)).length :=
      List.length_pos.mpr (List.ne_nil_of_mem hmem)
    have hawait : awaitPromises settled = some (.multiFailRes
        ((settled.filter (fun r => r.error.isSome)).filterMap toErrorResult)) := by
      simp only [awaitPromises]
      rw [if_pos hlen]
    refine ⟨?_, ?_, ?_⟩
    · simp [dispatchAwaitAndRun, hawait]
    · rw [hfilter]
      simp [dispatchAwaitAndRun, hawait]
    · intro rf hrf
      have hrf' : settled.filter (fun r => r.error.isSome) = [rf] := by
        rw [← hfilter]
        exact hrf
      have hrfmem : rf ∈ settled.filter (fun r => r.error.isSome) := by
        rw [hrf']
        exact List.mem_singleton_self rf
      have herrf : rf.error.isSome = true := (List.mem_filter.mp hrfmem).2
      rcases Option.isSome_iff_exists.mp herrf with ⟨e, he⟩
      refine ⟨e, he, ?_, unwrap_multi_single_parse e⟩
      have hlist : (settled.filter (fun r => r.error.isSome)).filterMap toErrorResult =
          [.parseErrorsRes e] := by
        rw [hrf']
        simp [toErrorResult, he]
      simp [dispatchAwaitAndRun, hawait, hlist]
  · intro h
    have hnil : settled.filter (fun r => r.error.isSome) = [] := by
      rw [List.filter_eq_nil_iff]
      intro a ha
      have h1 := h a ha
      have h2 := hreach a ha
      simp [SettledParseResult.isFailure, h2] at h1
      simp [h1]
    have hawait : awaitPromises settled = none := by
      simp only [awaitPromises]
      rw [if_neg]
      simp [hnil]
    simp [dispatchAwaitAndRun, hawait]

/-- Witness for C2: two settled results, one failed — the executor does
not run and the aggregate unwraps to the single error leaf. -/
theorem c2_witness :
    (dispatchAwaitAndRun (0 : Nat) settledC2).1 =
      ExecOutcome.aborted (.multiFailRes [.parseErrorsRes "No user by `xyz`"]) ∧
    (dispatchAwaitAndRun (0 : Nat) settledC2).2 = 0 ∧
    (FailLikeResult.multiFailRes [.parseErrorsRes "No user by `xyz`"]).unwrap =
      [.parseErrorsRes "No user by `xyz`"] := by
  have h := c2_failfast_aggregation (0 : Nat) settledC2 (by decide)
  have h1 := h.1 ⟨{ value := none, error := some "No user by `xyz`" }, by decide, by decide⟩
  rcases h1 with ⟨hcount, -, hsingle⟩
  rcases hsingle { value := none, error := some "No user by `xyz`" } (by decide)
    with ⟨e, he, habort, hunwrap⟩
  have hee : "No user by `xyz`" = e := by
    exact Option.some.inj he
  rw [← hee] at habort hunwrap
  exact ⟨habort, hcount, hunwrap⟩

/-- Claim C5 (code bug): a persisted entry that fails to deserialize is
*not* skipped.  `deserializeInteraction` does catch the error and return
`undefined`, and `register(undefined)` is a no-op — but
`loadAllPersistentData` then calls `interaction.create()` on
`undefined`, and the `TypeError` aborts the whole bulk load: with
`[corruptDocC5, goodDocC5]` the good entry (loadable on its own, third
conjunct) is never registered. -/
theorem c5_corrupt_entry_aborts_bulk_load :
    deserializeInteraction regC5 corruptDocC5 = none ∧
    deserializeInteraction regC5 goodDocC5 = some goodInteractionC5 ∧
    loadAllPersistentData regC5 [goodDocC5] { } =
      ({ registeredIds := [2], registeredByName := [("good", 2)], triggerRegisters := 1 }, none) ∧
    loadAllPersistentData regC5 [corruptDocC5, goodDocC5] { } =
      ({ }, some "TypeError: cannot read create of undefined") := by
  decide

/-- Claim C7 (code bug): the Duration round trip
`parse(emit(parse(s).value)).value == parse(s).value` fails at the valid
duration string `1s`: parsing yields 1000 ms, but `Duration` has no
custom emitter, so `emit(1000)` is the bare `"1000"`, and parsing that
fails with a "No time unit by name" parse error over the empty unit. -/
theorem c7_duration_emit_roundtrip_fails :
    (durationParse "1s".toList).map Prod.fst = some (ParseRes.ok (DecNum.ofInt 1000)) ∧
    durationEmit (DecNum.ofInt 1000) = "1000" ∧
    (durationParse (durationEmit (DecNum.ofInt 1000)).toList).map Prod.fst =
      some (ParseRes.err "No time unit by name ``" 4 4) := by
  decide

/-- After `Map.delete(k)` the key `k` is absent. -/
theorem listGet_eraseKey {α : Type} (l : List (String × α)) (k : String) :
    listGet (listEraseKey l k) k = none := by
  induction l with
  | nil => rfl
  | cons p rest ih =>
    by_cases h : p.1 = k
    · simpa [listEraseKey, List.filter_cons, h] using ih
    · simpa [listEraseKey, List.filter_cons, h, listGet] using ih

/-- Claim C4: an interaction built with one trigger, conditions `c1`,
`c2`, one action and the `once()` lifetime: firing it with `c1` passing
and `c2` failing runs no action and leaves the manager state (both
registry maps, the unregister counter) untouched; firing it with both
passing runs the action exactly once and then destroys the interaction —
its id and name are gone from the registry maps and the trigger's
`unregister` ran exactly once. -/
theorem c4_once_interaction {E : Type} (args : E) (st : ManagerState)
    (idv trg a1 : Nat) (namev : Option String)
    (c1 c2 : Option (InteractionContext E) → Bool)
    (i : Interaction E)
    (hi : i = { id := idv, name := namev, lifetime := some (fun _ => false),
                triggers := some trg, conditions := [c1, c2], actions := [a1] }) :
    (c1 (i.mkCtx (.inr args)) = true → c2 (i.mkCtx (.inr args)) = false →
      i.trigger st (.inr args) = some ⟨i.mkCtx (.inr args), [], st⟩) ∧
    (c1 (i.mkCtx (.inr args)) = true → c2 (i.mkCtx (.inr args)) = true →
      ∃ st', i.trigger st (.inr args) = some ⟨i.mkCtx (.inr args), [a1], st'⟩ ∧
        st'.unregisterCalls = st.unregisterCalls + 1 ∧
        idv ∉ st'.interactionIds ∧
        (∀ n, namev = some n → listGet st'.interactionsByName n = none)) := by
  subst hi
  constructor
  · intro h1 h2
    simp [Interaction.trigger, h1, h2]
  · intro h1 h2
    refine ⟨{ st with
        unregisterCalls := st.unregisterCalls + 1,
        interactionIds := st.interactionIds.filter (fun k => k ≠ idv),
        interactionsByName :=
          match namev with
          | some n => listEraseKey st.interactionsByName n
          | none => st.interactionsByName }, ?_, rfl, ?_, ?_⟩
    · cases namev <;> simp [Interaction.trigger, Interaction.destroy, h1, h2]
    · simp
    · intro n hn
      subst hn
      simp [listGet_eraseKey]

/-- Witness for C4: the concrete once-interaction with both conditions
passing runs its single action and is destroyed; the variant with a
failing second condition runs nothing and leaves the state untouched. -/
theorem c4_witness :
    interactionC4fail.trigger stateC4 (.inr ()) =
      some ⟨interactionC4fail.mkCtx (.inr ()), [], stateC4⟩ ∧
    (∃ st', interactionC4.trigger stateC4 (.inr ()) =
       some ⟨interactionC4.mkCtx (.inr ()), [7], st'⟩ ∧
       st'.unregisterCalls = stateC4.unregisterCalls + 1 ∧
       101 ∉ st'.interactionIds ∧
       (∀ n, (some "confirm" : Option String) = some n →
         listGet st'.interactionsByName n = none)) := by
  have hfail := c4_once_interaction () stateC4 101 3 7 (some "confirm")
    (fun _ => true) (fun _ => false) interactionC4fail rfl
  have hpass := c4_once_interaction () stateC4 101 3 7 (some "confirm")
    (fun _ => true) (fun _ => true) interactionC4 rfl
  exact ⟨hfail.1 rfl rfl, hpass.2 rfl rfl⟩

/-- Claim C10: the builder chain `builder().when(t).onlyIf(c).then(a)`
never sets the lifetime field, and triggering any interaction whose
lifetime is unset with all conditions passing runs its actions and then
destroys it — the very same outcome as the run-once lifetime: the
`trigger` results coincide, the id and name leave the registry maps and
the trigger's `unregister` runs exactly once. -/
theorem c10_unset_lifetime_destroys {E : Type} (i : Interaction E) (st : ManagerState)
    (args : E)
    (hl : i.lifetime = none) (htr : ∃ t, i.triggers = some t)
    (hall : ∀ c ∈ i.conditions, c (i.mkCtx (.inr args)) = true) :
    (∀ (idv : Nat) (stb : ManagerState) (t a : Nat)
       (c : Option (InteractionContext E) → Bool),
       ((((managerBuilder E stb idv).1.when t).onlyIf c).thenDo a).lifetime = none) ∧
    i.trigger st (.inr args) =
      ({ i with lifetime := some (fun _ => false) } : Interaction E).trigger st (.inr args) ∧
    (∃ st', i.trigger st (.inr args) = some ⟨i.mkCtx (.inr args), i.actions, st'⟩ ∧
      i.id ∉ st'.interactionIds ∧
      st'.unregisterCalls = st.unregisterCalls + 1 ∧
      (∀ n, i.name = some n → listGet st'.interactionsByName n = none)) := by
  rcases htr with ⟨t, ht⟩
  have hcond : i.conditions.all (fun c => c (i.mkCtx (.inr args))) = true :=
    List.all_eq_true.mpr hall
  refine ⟨fun _ _ _ _ _ => rfl, ?_, ?_⟩
  · simp [Interaction.trigger, Interaction.destroy, Interaction.mkCtx, hl]
  · refine ⟨{ st with
        unregisterCalls := st.unregisterCalls + 1,
        interactionIds := st.interactionIds.filter (fun k => k ≠ i.id),
        interactionsByName :=
          match i.name with
          | some n => listEraseKey st.interactionsByName n
          | none => st.interactionsByName }, ?_, ?_, rfl, ?_⟩
    · simp [Interaction.trigger, Interaction.destroy, hl, ht, hcond]
    · simp
    · intro n hn
      simp [hn, listGet_eraseKey]

/-- Witness for C10: the builder-made interaction (no `once()` /
`persist()` call) has no lifetime and destroys itself after a fully
passing trigger. -/
theorem c10_witness :
    interactionC10.lifetime = none ∧
    (∃ st', interactionC10.trigger stateC10 (.inr ()) =
       some ⟨interactionC10.mkCtx (.inr ()), interactionC10.actions, st'⟩ ∧
       interactionC10.id ∉ st'.interactionIds ∧
       st'.unregisterCalls = stateC10.unregisterCalls + 1 ∧
       (∀ n, interactionC10.name = some n → listGet st'.interactionsByName n = none)) := by
  have h := c10_unset_lifetime_destroys interactionC10 stateC10 () rfl ⟨4, rfl⟩
    (by
      intro c hc
      simp [interactionC10, Interaction.thenDo, Interaction.onlyIf, Interaction.when,
        managerBuilder] at hc
      subst hc
      rfl)
  exact ⟨rfl, h.2.2⟩

/-- Claim C8 (code bug): `Interaction.trigger` wraps raw event arguments
into a defined context (third and fourth conjuncts), but when the caller
passes an already-wrapped `InteractionContext` the missing else-branch
leaves `ctx` undefined: the conditions receive `none`, so
`interactionC8`'s definedness-testing condition fails and no action
runs, where the claim promises a defined context carrying the
interaction and the payload. -/
theorem c8_wrapped_context_left_undefined :
    interactionC8.mkCtx (Sum.inl wrappedCtxC8) = none ∧
    interactionC8.trigger { } (Sum.inl wrappedCtxC8) = some ⟨none, [], { }⟩ ∧
    interactionC8.mkCtx (Sum.inr 5) = some ⟨42, 5⟩ ∧
    interactionC8.trigger { } (Sum.inr 5) = some ⟨some ⟨42, 5⟩, [7], { }⟩ := by
  exact ⟨rfl, rfl, rfl, rfl⟩

/-- `move` never changes the underlying string. -/
theorem move_str (r : StringReader) (a : Int) : ((r.move a).2).str = r.str := by
  simp only [StringReader.move]
  split <;> rfl

/-- A unit-step `move` keeps the cursor within `[-1, length]`: the
cursor is frozen exactly at `-1` and at `length`, and from `[0, length-1]`
one step stays inside the range. -/
theorem move_unit_range (r : StringReader) (a : Int)
    (ha : a = 1 ∨ a = -1)
    (h1 : -1 ≤ r.idx) (h2 : r.idx ≤ (r.str.length : Int)) :
    -1 ≤ ((r.move a).2).idx ∧ ((r.move a).2).idx ≤ (((r.move a).2).str.length : Int) := by
  simp only [StringReader.move]
  split
  · exact ⟨h1, h2⟩
  · rename_i hfreeze
    push_neg at hfreeze
    rcases ha with rfl | rfl <;>
      exact ⟨by simp; omega, by simp; omega⟩

/-- The `collect` loop preserves the `[-1, length]` cursor range (it
only ever calls `next(1)`) and the string. -/
theorem collectGo_range (pred skip : Char → Bool) :
    ∀ (fuel : Nat) (r : StringReader) (acc cs : List Char) (r' : StringReader),
      collectGo pred skip fuel r acc = some (cs, r') →
      -1 ≤ r.idx → r.idx ≤ (r.str.length : Int) →
      -1 ≤ r'.idx ∧ r'.idx ≤ (r'.str.length : Int) ∧ r'.str = r.str := by
  intro fuel
  induction fuel with
  | zero =>
    intro r acc cs r' h
    cases h
  | succ fuel ih =>
    intro r acc cs r' h h1 h2
    simp only [collectGo] at h
    split at h
    · simp only [Option.some.injEq, Prod.mk.injEq] at h
      obtain ⟨-, rfl⟩ := h
      exact ⟨h1, h2, rfl⟩
    · split at h
      · have hm := move_unit_range r 1 (Or.inl rfl) h1 h2
        have hs := move_str r 1
        have := ih (r.move 1).2 acc cs r' h hm.1 hm.2
        exact ⟨this.1, this.2.1, by rw [this.2.2, hs]⟩
      · split at h
        · simp only [Option.some.injEq, Prod.mk.injEq] at h
          obtain ⟨-, rfl⟩ := h
          exact ⟨h1, h2, rfl⟩
        · have hm := move_unit_range r 1 (Or.inl rfl) h1 h2
          have hs := move_str r 1
          have := ih (r.move 1).2 _ cs r' h hm.1 hm.2
          exact ⟨this.1, this.2.1, by rw [this.2.2, hs]⟩

/-- The `skipWhitespace` loop preserves the `[-1, length]` cursor range
and the string. -/
theorem skipWhitespaceGo_range :
    ∀ (fuel : Nat) (r : StringReader) (c : Char) (r' : StringReader),
      skipWhitespaceGo fuel r c = some r' →
      -1 ≤ r.idx → r.idx ≤ (r.str.length : Int) →
      -1 ≤ r'.idx ∧ r'.idx ≤ (r'.str.length : Int) ∧ r'.str = r.str := by
  intro fuel
  induction fuel with
  | zero =>
    intro r c r' h
    cases h
  | succ fuel ih =>
    intro r c r' h h1 h2
    simp only [skipWhitespaceGo] at h
    split at h
    · have hm := move_unit_range r 1 (Or.inl rfl) h1 h2
      have hs := move_str r 1
      have := ih (r.move 1).2 (r.move 1).1 r' h hm.1 hm.2
      exact ⟨this.1, this.2.1, by rw [this.2.2, hs]⟩
    · cases h
      exact ⟨h1, h2, rfl⟩

/-- One unit-step reader operation preserves the `[-1, length]` cursor
range and the string. -/
theorem readerOp_unit_range (op : ReaderOp) (r r' : StringReader)
    (hop : op.unitStep) (h : op.apply r = some r')
    (h1 : -1 ≤ r.idx) (h2 : r.idx ≤ (r.str.length : Int)) :
    -1 ≤ r'.idx ∧ r'.idx ≤ (r'.str.length : Int) ∧ r'.str = r.str := by
  cases op with
  | nextN n =>
    have hn : n = 1 := hop
    subst hn
    simp only [ReaderOp.apply, StringReader.next, Option.some.injEq] at h
    subst h
    exact ⟨(move_unit_range r 1 (Or.inl rfl) h1 h2).1,
      (move_unit_range r 1 (Or.inl rfl) h1 h2).2, move_str r 1⟩
  | backN n =>
    have hn : n = 1 := hop
    subst hn
    simp only [ReaderOp.apply, StringReader.back, Option.some.injEq] at h
    subst h
    exact ⟨(move_unit_range r (-1) (Or.inr rfl) h1 h2).1,
      (move_unit_range r (-1) (Or.inr rfl) h1 h2).2, move_str r (-1)⟩
  | collectOp p sk =>
    simp only [ReaderOp.apply, StringReader.collect, Option.map_eq_some'] at h
    rcases h with ⟨⟨cs, rr⟩, hcol, hr⟩
    cases hr
    exact collectGo_range p sk _ r [] cs rr hcol h1 h2
  | skipWs =>
    simp only [ReaderOp.apply, StringReader.skipWhitespace] at h
    exact skipWhitespaceGo_range _ r r.current r' h h1 h2

/-- A sequence of unit-step reader operations preserves the
`[-1, length]` cursor range and the string. -/
theorem runReaderOps_range (ops : List ReaderOp) :
    ∀ (r r' : StringReader), (∀ op ∈ ops, op.unitStep) →
      runReaderOps ops r = some r' →
      -1 ≤ r.idx → r.idx ≤ (r.str.length : Int) →
      -1 ≤ r'.idx ∧ r'.idx ≤ (r'.str.length : Int) ∧ r'.str = r.str := by
  induction ops with
  | nil =>
    intro r r' _ h h1 h2
    cases h
    exact ⟨h1, h2, rfl⟩
  | cons op rest ih =>
    intro r r' hunit h h1 h2
    simp only [runReaderOps] at h
    rcases hstep : op.apply r with - | r1
    · rw [hstep] at h
      cases h
    · rw [hstep] at h
      have hs := readerOp_unit_range op r r1 (hunit op (List.mem_cons_self op rest)) hstep h1 h2
      have := ih r1 r' (fun o ho => hunit o (List.mem_cons_of_mem op ho)) h hs.1 hs.2.1
      exact ⟨this.1, this.2.1, by rw [this.2.2, hs.2.2]⟩

/-- Reading at or past the end of the string yields `EOS`. -/
theorem atIdx_eos (r : StringReader) (i : Int) (h : (r.str.length : Int) ≤ i) :
    r.atIdx i = EOS := by
  have h0 : ¬ i < 0 := by omega
  simp only [StringReader.atIdx, atIdxGo]
  rw [if_neg h0, if_pos (by omega)]

/-- Claim C9, amended: the invariant `0 ≤ position ≤ length` fails as
stated (see the counterexample), because moves are unclamped and
position `-1` reads the last character.  What holds: starting from a
fresh reader, any sequence of *unit-step* `next(1)` / `back(1)` /
`collect` / `skipWhitespace` operations keeps the cursor within
`-1 ≤ position ≤ length`, and reading at any position at or past the end
of the text yields the `EOS` sentinel. -/
theorem c9_amended_cursor_range (s : List Char) (ops : List ReaderOp) (r' : StringReader)
    (hunit : ∀ op ∈ ops, op.unitStep)
    (hrun : runReaderOps ops (StringReader.make s) = some r') :
    (-1 ≤ r'.idx ∧ r'.idx ≤ (s.length : Int)) ∧
    (∀ i : Int, (s.length : Int) ≤ i → r'.atIdx i = EOS) := by
  have h := runReaderOps_range ops (StringReader.make s) r' hunit hrun
    (by simp [StringReader.make]) (by simp [StringReader.make])
  obtain ⟨ha, hb, hstr⟩ := h
  have hlen : (r'.str.length : Int) = (s.length : Int) := by
    rw [hstr]
    rfl
  exact ⟨⟨ha, by omega⟩, fun i hi => atIdx_eos r' i (by omega)⟩

/-- Witness for the amended C9: running
`next(1); collect; back(1); skipWhitespace` on a fresh reader over `ab`
lands on cursor 2, inside `[-1, 2]`, and reading at past-the-end
positions yields `EOS`. -/
theorem c9_amended_witness :
    (-1 ≤ (⟨"ab".toList, 2, []⟩ : StringReader).idx ∧
      (⟨"ab".toList, 2, []⟩ : StringReader).idx ≤ ("ab".toList.length : Int)) ∧
    (∀ i : Int, ("ab".toList.length : Int) ≤ i →
      (⟨"ab".toList, 2, []⟩ : StringReader).atIdx i = EOS) := by
  have hunit : ∀ op ∈ opsC9, op.unitStep := by
    intro op hop
    simp only [opsC9, List.mem_cons, List.not_mem_nil, or_false] at hop
    rcases hop with rfl | rfl | rfl | rfl <;> simp [ReaderOp.unitStep]
  exact c9_amended_cursor_range "ab".toList opsC9 ⟨"ab".toList, 2, []⟩ hunit (by decide)

/-- Setting a key absent from an association list appends the binding. -/
theorem listSet_fresh {α : Type} (l : List (String × α)) (k : String) (v : α)
    (h : k ∉ l.map Prod.fst) :
    listSet l k v = l ++ [(k, v)] := by
  induction l with
  | nil => rfl
  | cons p rest ih =>
    simp only [List.map_cons, List.mem_cons] at h
    push_neg at h
    simp only [listSet, List.cons_append]
    rw [if_neg (fun he => h.1 he.symm), ih h.2]

/-- `saveParameters` (a fold of property assignments) on a bag of
distinct, non-`key` fields appends the bag after the accumulator. -/
theorem foldl_listSet_params (ps : JFields) :
    ∀ (acc : JFields), (ps.map Prod.fst).Nodup →
      (∀ p ∈ ps, p.1 ∉ acc.map Prod.fst) →
      ps.foldl (fun o kv => listSet o kv.1 kv.2) acc = acc ++ ps := by
  induction ps with
  | nil =>
    intro acc _ _
    simp
  | cons p rest ih =>
    intro acc hnd hfresh
    have hnd0 : (p.1 :: rest.map Prod.fst).Nodup := by
      simpa only [List.map_cons] using hnd
    have hnd' := List.nodup_cons.mp hnd0
    simp only [List.foldl_cons]
    rw [listSet_fresh acc p.1 p.2 (hfresh p (List.mem_cons_self p rest))]
    rw [ih (acc ++ [p]) hnd'.2 ?_]
    · simp
    · intro q hq
      simp only [List.map_append, List.mem_append, List.map_cons, List.map_nil,
        List.mem_cons, List.not_mem_nil, or_false]
      push_neg
      refine ⟨hfresh q (List.mem_cons_of_mem p hq), fun he => ?_⟩
      exact hnd'.1 (he ▸ List.mem_map_of_mem Prod.fst hq)

/-- `createWithParameters` drops only the `key` discriminator when the
bag itself has no `key` field. -/
theorem filter_ne_key (ps : JFields) (h : "key" ∉ ps.map Prod.fst) :
    ps.filter (fun e => e.1 ≠ "key") = ps := by
  rw [List.filter_eq_self]
  intro a ha
  simp only [ne_eq, decide_not, Bool.not_eq_eq_eq_not, Bool.not_true, decide_eq_false_iff_not]
  intro he
  exact h (he ▸ List.mem_map_of_mem Prod.fst ha)

/-- Dropping the discriminator from a saved parameterized document
recovers exactly the parameter bag. -/
theorem filter_drop_key (k : SVal) (ps : JFields) (h : "key" ∉ ps.map Prod.fst) :
    (("key", k) :: ps).filter (fun e => e.1 ≠ "key") = ps := by
  rw [List.filter_cons, if_neg (by simp)]
  exact filter_ne_key ps h

/-- `loadComponent` on an object document whose `key` field names a
registered parameterized template builds a fresh instance of the
template from the document's fields. -/
theorem loadComponent_objDoc_known (reg : Registry) (fields : JFields) (k : String)
    (tmpl : SComponent)
    (hk : listGet fields "key" = some (.strV k))
    (hg : listGet reg k = some tmpl)
    (hp : tmpl.parameterized = true) :
    loadComponent reg (.objDoc fields) = .ok (some (tmpl.createWithParameters fields)) := by
  simp [loadComponent, hk, hg, hp]

/-- One well-formed component round-trips through
`saveComponent` / `loadComponent` to a component with the same
`type::name` key and a deep-equal parameter bag. -/
theorem loadComponent_saveComponent (reg : Registry) (c : SComponent)
    (h : compWellFormed reg c) :
    ∃ c', loadComponent reg (saveComponent c) = .ok (some c') ∧
      c'.key = c.key ∧ c'.params = c.params := by
  obtain ⟨hser, hnd, hkey, hreg⟩ := h
  by_cases hp : c.parameterized = true
  · rw [if_pos hp] at hreg
    rcases hreg with ⟨tmpl, hget, ht1, ht2, ht3, ht4⟩
    have hfold : c.params.foldl (fun o kv => listSet o kv.1 kv.2) [("key", SVal.strV c.key)] =
        ("key", SVal.strV c.key) :: c.params := by
      rw [foldl_listSet_params c.params [("key", SVal.strV c.key)] hnd ?_]
      · rfl
      · intro p hp0
        simp only [List.map_cons, List.map_nil, List.mem_cons, List.not_mem_nil, or_false]
        intro he
        exact hkey (he ▸ List.mem_map_of_mem Prod.fst hp0)
    have hsave : saveComponent c = .objDoc (("key", SVal.strV c.key) :: c.params) := by
      simp only [saveComponent, hser, hp]
      rw [if_neg (by simp), if_neg (by simp), hfold]
    have hkv : listGet (("key", SVal.strV c.key) :: c.params) "key" = some (SVal.strV c.key) := by
      simp [listGet]
    refine ⟨{ tmpl with params := c.params }, ?_, ?_, rfl⟩
    · rw [hsave, loadComponent_objDoc_known reg _ c.key tmpl hkv hget ht4]
      simp only [SComponent.createWithParameters]
      rw [filter_drop_key _ c.params hkey]
    · simp [SComponent.key, ht1, ht2]
  · rw [if_neg hp] at hreg
    have hsave : saveComponent c = .strDoc c.key := by
      simp only [saveComponent, hser, hp]
      rw [if_neg (by simp), if_pos (by simp [hp])]
    exact ⟨c, by rw [hsave]; simp [loadComponent, hreg], rfl, rfl⟩

/-- Saving then loading a list of present, well-formed components
preserves keys and parameter bags pointwise. -/
theorem loadComponents_saveComponents (reg : Registry) :
    ∀ (l : List (Option SComponent)),
      (∀ oc ∈ l, ∃ c, oc = some c ∧ compWellFormed reg c) →
      ∃ docs l', saveComponents l = some docs ∧ loadComponents reg docs = .ok l' ∧
        l'.map (Option.map SComponent.key) = l.map (Option.map SComponent.key) ∧
        l'.map (Option.map SComponent.params) = l.map (Option.map SComponent.params) := by
  intro l
  induction l with
  | nil =>
    intro _
    exact ⟨[], [], rfl, rfl, rfl, rfl⟩
  | cons oc rest ih =>
    intro h
    rcases h oc (List.mem_cons_self oc rest) with ⟨c, rfl, hwf⟩
    rcases ih (fun x hx => h x (List.mem_cons_of_mem _ hx)) with ⟨docs, l', h1, h2, h3, h4⟩
    rcases loadComponent_saveComponent reg c hwf with ⟨c', hl, hk, hpp⟩
    refine ⟨saveComponent c :: docs, some c' :: l', ?_, ?_, ?_, ?_⟩
    · simp [saveComponents, h1]
    · simp [loadComponents, hl, h2]
    · simp [h3, hk]
    · simp [h4, hpp]

/-- Claim C6, counterexample: the claim fails as stated.  An interaction
whose parameterized condition carries a parameter field literally named
`key` serializes (the bag's `key` overwrites the `condition::isMessage`
discriminator), but deserializing the produced document throws — the
clobbered key `evil` is unknown to the registry — so the round trip
yields no interaction at all, never mind one with equal keys and bags. -/
theorem c6_counterexample :
    serializeInteraction badInteractionC6 = some badDocC6 ∧
    deserializeInteraction regC6 badDocC6 = none := by
  decide

/-- Claim C6, amended: for every interaction whose trigger, conditions
and actions are all present, serializable, registry-known components
(base components being the registry instances themselves, parameterized
ones instances of registered templates) *whose parameter bags contain no
field named `key`*, serializing and then deserializing yields an
interaction with the same id and name whose trigger/condition/action
components carry the same `type::name` keys in the same order and
deep-equal parameter bags. -/
theorem c6_roundtrip_amended (reg : Registry) (i : SInteraction) (t : SComponent)
    (ht : i.triggers = some t) (hwt : compWellFormed reg t)
    (hc : ∀ oc ∈ i.conditions, ∃ c, oc = some c ∧ compWellFormed reg c)
    (ha : ∀ oa ∈ i.actions, ∃ c, oa = some c ∧ compWellFormed reg c) :
    ∃ doc i', serializeInteraction i = some doc ∧
      deserializeInteraction reg doc = some i' ∧
      i'.id = i.id ∧ i'.name = i.name ∧
      i'.triggers.map SComponent.key = i.triggers.map SComponent.key ∧
      i'.triggers.map SComponent.params = i.triggers.map SComponent.params ∧
      i'.conditions.map (Option.map SComponent.key) =
        i.conditions.map (Option.map SComponent.key) ∧
      i'.conditions.map (Option.map SComponent.params) =
        i.conditions.map (Option.map SComponent.params) ∧
      i'.actions.map (Option.map SComponent.key) =
        i.actions.map (Option.map SComponent.key) ∧
      i'.actions.map (Option.map SComponent.params) =
        i.actions.map (Option.map SComponent.params) := by
  rcases loadComponent_saveComponent reg t hwt with ⟨t', hlt, hkt, hpt⟩
  rcases loadComponents_saveComponents reg i.conditions hc with ⟨cdocs, conds', hc1, hc2, hc3, hc4⟩
  rcases loadComponents_saveComponents reg i.actions ha with ⟨adocs, acts', ha1, ha2, ha3, ha4⟩
  refine ⟨⟨i.name, i.id, saveComponent t, cdocs, adocs⟩,
    { id := i.id, name := i.name, persistent := true, lifetimePersistent := true,
      triggers := some t', conditions := conds', actions := acts' },
    ?_, ?_, rfl, rfl, ?_, ?_, hc3, hc4, ha3, ha4⟩
  · simp [serializeInteraction, ht, hc1, ha1]
  · simp [deserializeInteraction, hlt, hc2, ha2]
  · simp [ht, hkt]
  · simp [ht, hpt]

/-- Witness for the amended C6: the concrete interaction with a base
trigger and benign parameterized condition/action round-trips with equal
keys and bags. -/
theorem c6_witness :
    ∃ doc i', serializeInteraction goodInteractionC6 = some doc ∧
      deserializeInteraction regC6 doc = some i' ∧
      i'.id = goodInteractionC6.id ∧ i'.name = goodInteractionC6.name ∧
      i'.triggers.map SComponent.key = goodInteractionC6.triggers.map SComponent.key ∧
      i'.triggers.map SComponent.params = goodInteractionC6.triggers.map SComponent.params ∧
      i'.conditions.map (Option.map SComponent.key) =
        goodInteractionC6.conditions.map (Option.map SComponent.key) ∧
      i'.conditions.map (Option.map SComponent.params) =
        goodInteractionC6.conditions.map (Option.map SComponent.params) ∧
      i'.actions.map (Option.map SComponent.key) =
        goodInteractionC6.actions.map (Option.map SComponent.key) ∧
      i'.actions.map (Option.map SComponent.params) =
        goodInteractionC6.actions.map (Option.map SComponent.params) := by
  refine c6_roundtrip_amended regC6 goodInteractionC6 trigBase rfl
    ⟨rfl, by decide, by decide, ?_⟩ ?_ ?_
  · rw [if_neg (by decide)]
    decide
  · intro oc hoc
    simp only [goodInteractionC6, List.mem_cons, List.not_mem_nil, or_false] at hoc
    subst hoc
    refine ⟨goodCondC6, rfl, rfl, by decide, by decide, ?_⟩
    rw [if_pos (by decide)]
    exact ⟨condTemplateC6, by decide, rfl, rfl, rfl, rfl⟩
  · intro oa hoa
    simp only [goodInteractionC6, List.mem_cons, List.not_mem_nil, or_false] at hoa
    subst hoa
    refine ⟨goodActC6, rfl, rfl, by decide, by decide, ?_⟩
    rw [if_pos (by decide)]
    exact ⟨actTemplateC6, by decide, rfl, rfl, rfl, rfl⟩

/-- Claim C9, counterexample: on the reader over `"ab"` at position 0, a
single `back(1)` moves the cursor to `-1` (outside `0 ≤ position`) and
returns `'b'` — the *last* character of the string, not the EOS
sentinel — because `at` resolves negative indices from the end; and
`next(3)` moves the cursor to 3, past `length = 2` (moves are not
clamped). -/
theorem c9_counterexample :
    (readerC9.back 1).2.idx = -1 ∧
    (readerC9.back 1).1 = 'b' ∧
    (readerC9.back 1).1 ≠ EOS ∧
    (readerC9.next 3).2.idx = 3 ∧
    (readerC9.str.length : Int) < (readerC9.next 3).2.idx := by
  decide

end OBL
